import Mathlib

/-!
Verification of the dictation-session core of SuperCmd
(src/renderer/src/SuperCommandWhisper.tsx).

JavaScript strings are modelled as lists of characters (`JsStr`); the
session's mutable refs become fields of an explicit `SessionState`; the
capability calls performed against the host (typeTextLive, replaceLiveText,
pasteText, clipboardWrite, restoreLastFrontmostApp, whisperStopNative) are
recorded in an output list of `CapCall`.  The promise chain
`liveTypeQueueRef` serializes typing operations, so each transcript event
together with its queued typing operation is modelled as one atomic step;
the success or failure of each capability call is an oracle argument.
-/

namespace SuperCmd

/-- A JavaScript string, modelled as its list of characters. -/
abbrev JsStr := List Char

/-- The space character (U+0020). -/
def spaceChar : Char := Char.ofNat 0x20

/-- JavaScript regular-expression class `\s` (ECMAScript WhiteSpace and
LineTerminator code points). -/
def isJsWs (c : Char) : Bool :=
  c.toNat == 0x09 || c.toNat == 0x0a || c.toNat == 0x0b || c.toNat == 0x0c ||
  c.toNat == 0x0d || c.toNat == 0x20 || c.toNat == 0xa0 || c.toNat == 0x1680 ||
  (Nat.ble 0x2000 c.toNat && Nat.ble c.toNat 0x200a) ||
  c.toNat == 0x2028 || c.toNat == 0x2029 || c.toNat == 0x202f ||
  c.toNat == 0x205f || c.toNat == 0x3000 || c.toNat == 0xfeff

/-- The character class stripped from the edges by `normalizeTranscript`:
backtick, straight double quote, straight single quote, and the two curly
double quotes U+201C / U+201D (source line 21). -/
def isEdgeQuote (c : Char) : Bool :=
  c.toNat == 0x60 || c.toNat == 0x22 || c.toNat == 0x27 ||
  c.toNat == 0x201c || c.toNat == 0x201d

/-- Worker for `.replace(/\s+/g, ' ')`: `inRun` records whether the previous
character was part of a whitespace run already replaced by a single space. -/
def collapseWsAux : Bool → JsStr → JsStr
  | _, [] => []
  | inRun, c :: rest =>
    if isJsWs c then
      if inRun then collapseWsAux true rest
      else spaceChar :: collapseWsAux true rest
    else c :: collapseWsAux false rest

/-- `.replace(/\s+/g, ' ')`: every maximal whitespace run becomes one space. -/
def collapseWs (l : JsStr) : JsStr := collapseWsAux false l

/-- Drop the longest run of characters satisfying `p` from the end. -/
def dropTrail (p : Char → Bool) (l : JsStr) : JsStr :=
  (l.reverse.dropWhile p).reverse

/-- `.replace(/^[q]+|[q]+$/g, '')` for the edge-quote class: remove the
leading run and the trailing run of quote characters. -/
def stripEdgeQuotes (l : JsStr) : JsStr :=
  dropTrail isEdgeQuote (l.dropWhile isEdgeQuote)

/-- `.trim()`: remove leading and trailing whitespace. -/
def trimWs (l : JsStr) : JsStr :=
  dropTrail isJsWs (l.dropWhile isJsWs)

/-- `normalizeTranscript` (source lines 18-23): collapse whitespace runs to a
single space, strip edge quote characters, then trim. -/
def normalizeTranscript (l : JsStr) : JsStr :=
  trimWs (stripEdgeQuotes (collapseWs l))

/-- `normalizeTranscript` on a possibly null/undefined argument: the source
coerces with `String(value || '')`, so a missing value becomes `''`. -/
def normalizeTranscriptLoose (v : Option JsStr) : JsStr :=
  normalizeTranscript (v.getD [])

/-- No two consecutive characters of the list are both whitespace. -/
def NoDoubleWs (l : JsStr) : Prop :=
  List.Chain' (fun a b => ¬(isJsWs a = true ∧ isJsWs b = true)) l

/-- `message.includes(pat)`: naive substring containment. -/
def hasSubstr (pat : JsStr) : JsStr → Bool
  | [] => pat.isEmpty
  | c :: rest => pat.isPrefixOf (c :: rest) || hasSubstr pat rest

/-- The fatal-error test of `sendTranscription`'s catch block (source line
259): `message.includes('API key') || message.includes('401') ||
message.includes('403')`. -/
def isAuthFailure (msg : JsStr) : Bool :=
  hasSubstr (("API key").toList) msg || hasSubstr (("401").toList) msg ||
  hasSubstr (("403").toList) msg

/-- `state` of the component: 'idle' | 'listening' | 'processing' | 'error'. -/
inductive WState
  | idle
  | listening
  | processing
  | error
deriving DecidableEq

/-- The two transcription backends: 'whisper' (OpenAI Whisper API, Buffered)
and 'native' (macOS SFSpeechRecognizer, Streaming). -/
inductive Backend
  | whisper
  | native
deriving DecidableEq

/-- A capability call performed against the host during a step. -/
inductive CapCall
  | typeTextLive (delta : JsStr)
  | replaceLiveText (prev next : JsStr)
  | pasteText (text : JsStr)
  | clipboardWrite (text : JsStr)
  | restoreLastFrontmostApp
  | whisperStopNative
deriving DecidableEq

/-- Outcome of an awaited `whisperTranscribe` call: it either resolves with a
transcript string or rejects with an error message. -/
inductive TOutcome
  | ok (text : JsStr)
  | err (msg : JsStr)
deriving DecidableEq

/-- The session's mutable refs, gathered into one record.  Booleans mirror
nullable refs: `focusTimerPending` is `editorFocusRestoreTimerRef !== null`,
`periodicTimer` is `periodicTimerRef !== null`, `recorderActive` is
"mediaRecorderRef holds a non-inactive recorder", `visualizerActive` is
"audio stream/context still held" and `closed` records that `onClose` ran. -/
structure SessionState where
  wstate : WState
  backend : Backend
  combinedTranscript : JsStr
  liveTypedText : JsStr
  finalizing : Bool
  committedText : JsStr
  typedCount : Nat
  focusRestored : Bool
  focusTimerPending : Bool
  periodicTimer : Bool
  transcribeInFlight : Bool
  audioChunks : List Nat
  recorderActive : Bool
  visualizerActive : Bool
  closed : Bool
deriving DecidableEq

/-- `restoreEditorFocusOnce` (source lines 153-170).  `delayed` is true for
the `delayMs = 150` call in `startListening`; a delayed restore only arms the
timer, the actual `restoreLastFrontmostApp` call is emitted when the timer
fires. -/
def restoreEditorFocusOnce (delayed : Bool) (s : SessionState) :
    SessionState × List CapCall :=
  if s.focusRestored then (s, [])
  else if delayed then
    ({ s with focusRestored := true, focusTimerPending := true }, [])
  else
    ({ s with focusRestored := true }, [CapCall.restoreLastFrontmostApp])

/-- The armed focus-restore timer fires after its 150 ms delay. -/
def focusTimerFire (s : SessionState) : SessionState × List CapCall :=
  if s.focusTimerPending then
    ({ s with focusTimerPending := false }, [CapCall.restoreLastFrontmostApp])
  else (s, [])

/-- `stopVisualizer` (source lines 70-99): release stream tracks, analyser
and audio context; idempotent. -/
def stopVisualizer (s : SessionState) : SessionState :=
  { s with visualizerActive := false }

/-- `stopRecording` (source lines 269-278): clear the periodic interval and
stop the MediaRecorder. -/
def stopRecording (s : SessionState) : SessionState :=
  { s with periodicTimer := false, recorderActive := false }

/-- `autoPasteAndClose` (source lines 172-184): normalize, then paste; fall
back to a clipboard write only when the paste reports failure; empty
normalized text closes without any capability call. -/
def autoPasteAndClose (pasteOk : Bool) (text : JsStr) : List CapCall :=
  let normalized := normalizeTranscript text
  if normalized = [] then []
  else if pasteOk then [CapCall.pasteText normalized]
  else [CapCall.pasteText normalized, CapCall.clipboardWrite normalized]

/-- `handleTranscriptUpdate` (source lines 192-211), the append-only
strategy.  The queued closure of `liveTypeQueueRef` is run as part of the
same step; `typedOk` is the oracle for the `typeTextLive` capability. -/
def handleTranscriptUpdate (typedOk : Bool) (fullTranscript : JsStr)
    (s : SessionState) : SessionState × List CapCall :=
  if fullTranscript = [] then (s, [])
  else
    let r1 := restoreEditorFocusOnce false s
    let s2 := { r1.1 with combinedTranscript := fullTranscript }
    if fullTranscript.length ≤ s2.typedCount then (s2, r1.2)
    else
      let delta := fullTranscript.drop s2.typedCount
      if delta = [] then (s2, r1.2)
      else if typedOk then
        ({ s2 with
            typedCount := fullTranscript.length,
            liveTypedText := fullTranscript },
         r1.2 ++ [CapCall.typeTextLive delta])
      else (s2, r1.2 ++ [CapCall.typeTextLive delta])

/-- The success tail of `sendTranscription` (source lines 239-253): record
the full-replacement transcript and enqueue the type-or-replace operation.
`normalized` is the already-normalized transcription result. -/
def sendTranscriptionApply (typedOk : Bool) (normalized : JsStr)
    (s : SessionState) : SessionState × List CapCall :=
  let r1 := restoreEditorFocusOnce false s
  let s2 := { r1.1 with combinedTranscript := normalized }
  let previous := s2.liveTypedText
  if previous = normalized then (s2, r1.2)
  else if previous = [] then
    ((if typedOk then { s2 with liveTypedText := normalized } else s2),
     r1.2 ++ [CapCall.typeTextLive normalized])
  else
    ((if typedOk then { s2 with liveTypedText := normalized } else s2),
     r1.2 ++ [CapCall.replaceLiveText previous normalized])

/-- `sendTranscription` (source lines 215-267), the Buffered path: submit the
accumulated audio, then either full-replace the live text with the new
transcript or handle the error.  `outcome` is the settled result of the
awaited `whisperTranscribe` call and `typedOk` the oracle for the queued
capability call. -/
def sendTranscription (isFinal : Bool) (outcome : TOutcome) (typedOk : Bool)
    (s : SessionState) : SessionState × List CapCall :=
  if s.audioChunks = [] then (s, [])
  else if s.audioChunks.sum < 1000 ∧ isFinal = false then (s, [])
  else
    match outcome with
    | TOutcome.ok text =>
      if text = [] ∨ (s.finalizing = true ∧ isFinal = false) then (s, [])
      else if normalizeTranscript text = [] then (s, [])
      else sendTranscriptionApply typedOk (normalizeTranscript text) s
    | TOutcome.err msg =>
      if isAuthFailure msg then
        (stopVisualizer (stopRecording { s with wstate := WState.error }), [])
      else (s, [])

/-- One firing of the interval installed by `startPeriodicTranscription`
(source lines 280-296).  The in-flight guard is taken before the call and
released in the `finally`, so across the whole step it is restored. -/
def periodicTranscriptionTick (outcome : TOutcome) (typedOk : Bool)
    (s : SessionState) : SessionState × List CapCall :=
  if s.periodicTimer = false then (s, [])
  else if s.transcribeInFlight = true ∨ s.finalizing = true then (s, [])
  else if s.audioChunks = [] then (s, [])
  else sendTranscription false outcome typedOk s

/-- A chunk event delivered by the native speech recognizer process. -/
inductive NativeChunk
  | ready
  | errorMsg (msg : JsStr)
  | ended
  | transcriptEvt (text : JsStr) (isFinal : Bool)
deriving DecidableEq

/-- `committed ? committed + ' ' + normalized : normalized` (source line
501). -/
def mkFullText (committed normalized : JsStr) : JsStr :=
  if committed = [] then normalized else committed ++ spaceChar :: normalized

/-- The `onWhisperNativeChunk` handler (source lines 462-512).  Returns the
new state, the capability calls, and whether the handler requested a
finalize (`ended` with a non-empty transcript). -/
def onNativeChunk (typedOk : Bool) (chunk : NativeChunk) (s : SessionState) :
    SessionState × List CapCall × Bool :=
  if s.finalizing then (s, [], false)
  else
    match chunk with
    | NativeChunk.ready => ({ s with wstate := WState.listening }, [], false)
    | NativeChunk.errorMsg _ =>
      (stopVisualizer { s with wstate := WState.error }, [], false)
    | NativeChunk.ended => (s, [], s.combinedTranscript ≠ [])
    | NativeChunk.transcriptEvt text isFinal =>
      let normalized := normalizeTranscript text
      if normalized = [] then (s, [], false)
      else
        let fullText := mkFullText s.committedText normalized
        let r := handleTranscriptUpdate typedOk fullText s
        ((if isFinal then { r.1 with committedText := fullText } else r.1),
         r.2, false)

/-- Oracles consumed by one run of the finalize protocol: the settled
outcome of the forced final transcription, the success of its typing call,
an optional last audio chunk delivered by `recorder.requestData()`, and the
success of the fallback paste. -/
structure FinalizeOracle where
  flushOutcome : TOutcome
  flushTypedOk : Bool
  extraChunk : Option Nat
  pasteOk : Bool
deriving DecidableEq

/-- The reconciliation tail of `finalizeAndClose` (source lines 355-371):
compare the normalized canonical transcript with the normalized live-typed
text and issue at most one corrective operation, then close. -/
def finalizeReconcile (pasteOk : Bool) (s : SessionState) :
    SessionState × List CapCall :=
  let base := normalizeTranscript s.combinedTranscript
  if base = [] then ({ s with closed := true }, [])
  else
    let liveTyped := normalizeTranscript s.liveTypedText
    if liveTyped = [] then
      ({ s with closed := true }, autoPasteAndClose pasteOk base)
    else if liveTyped = base then ({ s with closed := true }, [])
    else ({ s with closed := true }, [CapCall.replaceLiveText liveTyped base])

/-- `finalizeAndClose` (source lines 300-372).  The bounded-wait loop on the
in-flight transcription is modelled separately by `waitLoopFuel`; in this
atomic step the in-flight call has already settled (its outcome is
`o.flushOutcome`). -/
def finalizeAndClose (o : FinalizeOracle) (s : SessionState) :
    SessionState × List CapCall :=
  if s.finalizing then (s, [])
  else
    let s1 := { s with
        finalizing := true, focusTimerPending := false,
        wstate := WState.processing }
    let r2 :=
      match s1.backend with
      | Backend.whisper =>
        let sA := { s1 with periodicTimer := false }
        let sB := { sA with
            audioChunks := sA.audioChunks ++ o.extraChunk.toList,
            recorderActive := false }
        let sC := stopVisualizer sB
        if sC.audioChunks = [] then (sC, [])
        else sendTranscription true o.flushOutcome o.flushTypedOk sC
      | Backend.native => (stopVisualizer s1, [CapCall.whisperStopNative])
    let r3 := finalizeReconcile o.pasteOk r2.1
    (r3.1, r2.2 ++ r3.2)

/-- An asynchronous event a running session can observe. -/
inductive Event
  | nativeChunk (typedOk : Bool) (c : NativeChunk) (fin : FinalizeOracle)
  | tick (outcome : TOutcome) (typedOk : Bool)
  | dataAvailable (size : Nat)
  | stopTrigger (fin : FinalizeOracle)
  | focusTimerFires
deriving DecidableEq

/-- One step of the session: dispatch an event to the handler the source
installs for the active backend.  The recorder's `ondataavailable` pushes
non-empty blobs (source lines 425-429); `stopTrigger` is the Escape key,
the repeat hotkey, or the `onWhisperStopAndClose` message. -/
def step (s : SessionState) (e : Event) : SessionState × List CapCall :=
  match e with
  | Event.nativeChunk typedOk c fin =>
    if s.backend = Backend.native then
      let r := onNativeChunk typedOk c s
      if r.2.2 then
        let rf := finalizeAndClose fin r.1
        (rf.1, r.2.1 ++ rf.2)
      else (r.1, r.2.1)
    else (s, [])
  | Event.tick outcome typedOk =>
    if s.backend = Backend.whisper then periodicTranscriptionTick outcome typedOk s
    else (s, [])
  | Event.dataAvailable n =>
    if s.backend = Backend.whisper ∧ s.recorderActive = true ∧ 0 < n then
      ({ s with audioChunks := s.audioChunks ++ [n] }, [])
    else (s, [])
  | Event.stopTrigger fin => finalizeAndClose fin s
  | Event.focusTimerFires => focusTimerFire s

/-- Run a session over a list of events, accumulating the capability calls. -/
def run (s : SessionState) : List Event → SessionState × List CapCall
  | [] => (s, [])
  | e :: rest =>
    let r := step s e
    let r2 := run r.1 rest
    (r2.1, r.2 ++ r2.2)

/-- The state right after a successful `startListening` (source lines
376-527): all refs reset, the backend started (for 'whisper' the recorder's
`onstart` already ran, arming the periodic timer), and the delayed
`restoreEditorFocusOnce(150)` armed. -/
def sessionStart (b : Backend) : SessionState :=
  (restoreEditorFocusOnce true
    { wstate := match b with
        | Backend.whisper => WState.listening
        | Backend.native => WState.idle
      backend := b
      combinedTranscript := []
      liveTypedText := []
      finalizing := false
      committedText := []
      typedCount := 0
      focusRestored := false
      focusTimerPending := false
      periodicTimer := match b with
        | Backend.whisper => true
        | Backend.native => false
      transcribeInFlight := false
      audioChunks := []
      recorderActive := match b with
        | Backend.whisper => true
        | Backend.native => false
      visualizerActive := true
      closed := false }).1

/-- Count of `restoreLastFrontmostApp` calls in a call list. -/
def restoreCount (calls : List CapCall) : Nat :=
  calls.countP (fun c => decide (c = CapCall.restoreLastFrontmostApp))

/-- Number of finalize sequences begun along a trace: a step that flips the
`finalizing` guard from false to true is the entry of one finalize
sequence. -/
def finalizeCount (s : SessionState) : List Event → Nat
  | [] => 0
  | e :: rest =>
    let s2 := (step s e).1
    (if s.finalizing = false ∧ s2.finalizing = true then 1 else 0) +
      finalizeCount s2 rest

/-- The wait loop of `finalizeAndClose` (source lines 330-332):
`while (transcribeInFlightRef.current) await 50ms`.  `inFlightAt n` says
whether the in-flight transcription is still unresolved when the loop tests
the flag for the n-th time; `waitLoopFuel flag n fuel` runs at most `fuel`
tests starting from the n-th and returns the index at which the loop
exited, or `none` if it was still spinning when the fuel ran out. -/
def waitLoopFuel (inFlightAt : Nat → Bool) : Nat → Nat → Option Nat
  | _, 0 => none
  | n, Nat.succ fuel =>
    if inFlightAt n then waitLoopFuel inFlightAt (n + 1) fuel else some n

/-- An in-flight transcription call that never settles. -/
def stuckFlag : Nat → Bool := fun _ => true

/-- Fold a sequence of periodic (non-final) submissions over the session:
each pair is the settled transcription outcome and the success of the
corresponding queued typing operation. -/
def submitSeq (subs : List (TOutcome × Bool)) (s : SessionState) : SessionState :=
  subs.foldl (fun st p => (sendTranscription false p.1 p.2 st).1) s

/-- Default oracle values for concrete traces. -/
def finOracleDefault : FinalizeOracle :=
  { flushOutcome := TOutcome.ok [], flushTypedOk := true, extraChunk := none,
    pasteOk := true }

/-- A Streaming trace whose second transcript is shorter than the first:
the recognizer revises the partial "hello world" down to "hi". -/
def shrinkTrace : List Event :=
  [Event.nativeChunk true
    (NativeChunk.transcriptEvt (("hello world").toList) false) finOracleDefault,
   Event.nativeChunk true
    (NativeChunk.transcriptEvt (("hi").toList) false) finOracleDefault]

/-- Two stop triggers in quick succession, before any transcript update and
before the armed focus-restore timer has fired. -/
def doubleStopTrace : List Event :=
  [Event.stopTrigger finOracleDefault, Event.stopTrigger finOracleDefault]

/-- The straight single quote (U+0027). -/
def aposChar : Char := Char.ofNat 0x27

/-- A Buffered session at finalize time whose transcript normalizes to a
string that still begins with a quote character, and in which live typing
never succeeded. -/
def quoteState : SessionState :=
  { sessionStart Backend.whisper with
      combinedTranscript :=
        [aposChar, spaceChar, aposChar, spaceChar] ++ ("hi").toList }

/-- A Buffered session in which finalize has begun while a non-final
transcription call was still in flight. -/
def lateErrorState : SessionState :=
  { sessionStart Backend.whisper with
      finalizing := true, wstate := WState.processing, audioChunks := [2000] }

/-- A Buffered session state that passes the submission gates (non-empty
chunks, blob at least 1000 bytes). -/
def gatedState : SessionState :=
  { sessionStart Backend.whisper with audioChunks := [2000] }

/-! ### Lemmas about `normalizeTranscript` -/

theorem head?_collapseWsAux_true :
    ∀ (l : JsStr) (c : Char),
      (collapseWsAux true l).head? = some c → isJsWs c = false := by
  intro l
  induction l with
  | nil => intro c h; simp [collapseWsAux] at h
  | cons a rest ih =>
    intro c h
    cases ha : isJsWs a with
    | true =>
      rw [collapseWsAux, ha] at h
      simp only [if_true] at h
      exact ih c h
    | false =>
      rw [collapseWsAux, ha] at h
      simp only [Bool.false_eq_true, if_false, List.head?_cons,
        Option.some.injEq] at h
      rw [← h]
      exact ha

theorem chain'_collapseWsAux (l : JsStr) :
    ∀ b : Bool,
      List.Chain' (fun a c => ¬(isJsWs a = true ∧ isJsWs c = true))
        (collapseWsAux b l) := by
  induction l with
  | nil => intro b; simp [collapseWsAux]
  | cons a rest ih =>
    intro b
    cases ha : isJsWs a with
    | true =>
      cases b with
      | true =>
        rw [collapseWsAux, ha]
        simpa using ih true
      | false =>
        rw [collapseWsAux, ha]
        simp only [if_true, Bool.false_eq_true, if_false]
        rw [List.chain'_cons']
        refine ⟨?_, ih true⟩
        intro y hy hcon
        have := head?_collapseWsAux_true rest y (Option.mem_def.mp hy)
        rw [this] at hcon
        exact Bool.false_ne_true hcon.2
    | false =>
      rw [collapseWsAux, ha]
      simp only [Bool.false_eq_true, if_false]
      rw [List.chain'_cons']
      refine ⟨?_, ih false⟩
      intro y hy hcon
      rw [ha] at hcon
      exact Bool.false_ne_true hcon.1

theorem noDoubleWs_dropWhile (p : Char → Bool) (l : JsStr)
    (h : NoDoubleWs l) : NoDoubleWs (l.dropWhile p) :=
  h.suffix (List.dropWhile_suffix p)

theorem noDoubleWs_reverse (l : JsStr) (h : NoDoubleWs l) :
    NoDoubleWs l.reverse := by
  rw [NoDoubleWs, List.chain'_reverse]
  exact h.imp (fun _ _ hab hc => hab ⟨hc.2, hc.1⟩)

theorem noDoubleWs_dropTrail (p : Char → Bool) (l : JsStr)
    (h : NoDoubleWs l) : NoDoubleWs (dropTrail p l) :=
  noDoubleWs_reverse _ (noDoubleWs_dropWhile p _ (noDoubleWs_reverse _ h))

theorem noDoubleWs_normalizeTranscript (l : JsStr) :
    NoDoubleWs (normalizeTranscript l) := by
  unfold normalizeTranscript trimWs stripEdgeQuotes collapseWs
  exact noDoubleWs_dropTrail _ _
    (noDoubleWs_dropWhile _ _
      (noDoubleWs_dropTrail _ _
        (noDoubleWs_dropWhile _ _ (chain'_collapseWsAux l false))))

theorem head?_dropWhile_false (p : Char → Bool) :
    ∀ (l : JsStr) (c : Char), (l.dropWhile p).head? = some c → p c = false := by
  intro l
  induction l with
  | nil => intro c h; simp at h
  | cons a rest ih =>
    intro c h
    cases hp : p a with
    | true =>
      rw [List.dropWhile_cons, hp] at h
      simp only [if_true] at h
      exact ih c h
    | false =>
      rw [List.dropWhile_cons, hp] at h
      simp only [Bool.false_eq_true, if_false, List.head?_cons,
        Option.some.injEq] at h
      rw [← h]
      exact hp

theorem dropTrail_isPrefixOf (p : Char → Bool) (l : JsStr) : dropTrail p l <+: l := by
  rw [dropTrail, ← List.reverse_suffix]
  rw [List.reverse_reverse]
  exact List.dropWhile_suffix p

theorem head?_of_isPrefixOf {l₁ l₂ : JsStr} {c : Char} (h : l₁ <+: l₂)
    (hc : l₁.head? = some c) : l₂.head? = some c := by
  obtain ⟨t, rfl⟩ := h
  cases l₁ with
  | nil => simp at hc
  | cons a l => simpa using hc

theorem trimWs_head_not_ws (l : JsStr) (c : Char)
    (h : (trimWs l).head? = some c) : isJsWs c = false := by
  unfold trimWs at h
  exact head?_dropWhile_false isJsWs _ c
    (head?_of_isPrefixOf (dropTrail_isPrefixOf isJsWs _) h)

theorem trimWs_getLast_not_ws (l : JsStr) (c : Char)
    (h : (trimWs l).getLast? = some c) : isJsWs c = false := by
  unfold trimWs dropTrail at h
  rw [List.getLast?_reverse] at h
  exact head?_dropWhile_false isJsWs _ c h

theorem collapseWsAux_all_ws :
    ∀ l : JsStr, (∀ c ∈ l, isJsWs c = true) →
      collapseWsAux true l = [] ∧
      collapseWsAux false l = (if l = [] then [] else [spaceChar]) := by
  intro l
  induction l with
  | nil => intro _; exact ⟨rfl, rfl⟩
  | cons a rest ih =>
    intro h
    have ha : isJsWs a = true := h a (List.mem_cons_self a rest)
    have hr := ih (fun c hc => h c (List.mem_cons_of_mem a hc))
    constructor
    · rw [collapseWsAux, ha]
      simpa using hr.1
    · rw [collapseWsAux, ha]
      simp [hr.1]

theorem normalizeTranscript_all_ws (l : JsStr)
    (h : ∀ c ∈ l, isJsWs c = true) : normalizeTranscript l = [] := by
  unfold normalizeTranscript collapseWs
  rw [(collapseWsAux_all_ws l h).2]
  cases l with
  | nil => decide
  | cons a rest =>
    simp only [List.cons_ne_nil, if_false]
    decide

/-! ### Frame lemmas for the session operations -/

theorem handleTranscriptUpdate_frame (ok : Bool) (full : JsStr)
    (s : SessionState) :
    (handleTranscriptUpdate ok full s).1.backend = s.backend ∧
    (handleTranscriptUpdate ok full s).1.committedText = s.committedText ∧
    (handleTranscriptUpdate ok full s).1.finalizing = s.finalizing ∧
    (handleTranscriptUpdate ok full s).1.focusTimerPending = s.focusTimerPending ∧
    (handleTranscriptUpdate ok full s).1.periodicTimer = s.periodicTimer ∧
    (handleTranscriptUpdate ok full s).1.audioChunks = s.audioChunks ∧
    (handleTranscriptUpdate ok full s).1.transcribeInFlight = s.transcribeInFlight := by
  unfold handleTranscriptUpdate restoreEditorFocusOnce
  split_ifs <;> simp_all <;> split_ifs <;> simp_all

theorem handleTranscriptUpdate_typed_live (ok : Bool) (full : JsStr)
    (s : SessionState) (h : s.typedCount = s.liveTypedText.length) :
    (handleTranscriptUpdate ok full s).1.typedCount
      = (handleTranscriptUpdate ok full s).1.liveTypedText.length := by
  unfold handleTranscriptUpdate restoreEditorFocusOnce
  split_ifs <;> simp_all <;> split_ifs <;> simp_all

theorem restoreEditorFocusOnce_noop (d : Bool) (s : SessionState)
    (h : s.focusRestored = true) : restoreEditorFocusOnce d s = (s, []) := by
  unfold restoreEditorFocusOnce
  simp [h]

@[simp] theorem restoreCount_append (a b : List CapCall) :
    restoreCount (a ++ b) = restoreCount a + restoreCount b := by
  unfold restoreCount
  exact List.countP_append _ a b

@[simp] theorem restoreCount_nil : restoreCount [] = 0 := rfl

@[simp] theorem restoreCount_cons (c : CapCall) (l : List CapCall) :
    restoreCount (c :: l)
      = restoreCount l
        + (if c = CapCall.restoreLastFrontmostApp then 1 else 0) := by
  unfold restoreCount
  rw [List.countP_cons]
  simp

theorem handleTranscriptUpdate_restored (ok : Bool) (full : JsStr)
    (s : SessionState) (h : s.focusRestored = true) :
    (handleTranscriptUpdate ok full s).1.focusRestored = true ∧
    restoreCount (handleTranscriptUpdate ok full s).2 = 0 := by
  unfold handleTranscriptUpdate
  rw [restoreEditorFocusOnce_noop false s h]
  split_ifs <;> simp_all [restoreCount] <;> split_ifs <;>
    simp_all [restoreCount]

theorem sendTranscriptionApply_frame (k : Bool) (n : JsStr)
    (s : SessionState) :
    (sendTranscriptionApply k n s).1.backend = s.backend ∧
    (sendTranscriptionApply k n s).1.committedText = s.committedText ∧
    (sendTranscriptionApply k n s).1.typedCount = s.typedCount ∧
    (sendTranscriptionApply k n s).1.finalizing = s.finalizing ∧
    (sendTranscriptionApply k n s).1.audioChunks = s.audioChunks ∧
    (sendTranscriptionApply k n s).1.focusTimerPending = s.focusTimerPending ∧
    (sendTranscriptionApply k n s).1.transcribeInFlight = s.transcribeInFlight ∧
    (sendTranscriptionApply k n s).1.periodicTimer = s.periodicTimer := by
  unfold sendTranscriptionApply restoreEditorFocusOnce
  split_ifs <;> simp_all <;> (try split_ifs) <;> simp_all

theorem sendTranscriptionApply_liveTyped_of_failure (n : JsStr)
    (s : SessionState) :
    (sendTranscriptionApply false n s).1.liveTypedText = s.liveTypedText := by
  unfold sendTranscriptionApply restoreEditorFocusOnce
  split_ifs <;> simp_all <;> (try split_ifs) <;> simp_all

theorem sendTranscriptionApply_restored (k : Bool) (n : JsStr)
    (s : SessionState) (h : s.focusRestored = true) :
    (sendTranscriptionApply k n s).1.focusRestored = true ∧
    restoreCount (sendTranscriptionApply k n s).2 = 0 := by
  unfold sendTranscriptionApply
  rw [restoreEditorFocusOnce_noop false s h]
  split_ifs <;> simp_all [restoreCount] <;> (try split_ifs) <;>
    simp_all [restoreCount]

theorem sendTranscription_frame (isF : Bool) (o : TOutcome) (k : Bool)
    (s : SessionState) :
    (sendTranscription isF o k s).1.backend = s.backend ∧
    (sendTranscription isF o k s).1.committedText = s.committedText ∧
    (sendTranscription isF o k s).1.typedCount = s.typedCount ∧
    (sendTranscription isF o k s).1.finalizing = s.finalizing ∧
    (sendTranscription isF o k s).1.audioChunks = s.audioChunks ∧
    (sendTranscription isF o k s).1.focusTimerPending = s.focusTimerPending ∧
    (sendTranscription isF o k s).1.transcribeInFlight = s.transcribeInFlight := by
  cases o with
  | ok text =>
    have h := sendTranscriptionApply_frame k (normalizeTranscript text) s
    unfold sendTranscription
    split_ifs <;> simp_all <;> (try split_ifs) <;> simp_all
  | err msg =>
    unfold sendTranscription stopRecording stopVisualizer
    split_ifs <;> simp_all <;> (try split_ifs) <;> simp_all

theorem sendTranscription_liveTyped_of_failure (isF : Bool) (o : TOutcome)
    (s : SessionState) :
    (sendTranscription isF o false s).1.liveTypedText = s.liveTypedText := by
  cases o with
  | ok text =>
    have h := sendTranscriptionApply_liveTyped_of_failure
      (normalizeTranscript text) s
    unfold sendTranscription
    split_ifs <;> simp_all <;> (try split_ifs) <;> simp_all
  | err msg =>
    unfold sendTranscription stopRecording stopVisualizer
    split_ifs <;> simp_all <;> (try split_ifs) <;> simp_all

theorem sendTranscription_restored (isF : Bool) (o : TOutcome) (k : Bool)
    (s : SessionState) (h : s.focusRestored = true) :
    (sendTranscription isF o k s).1.focusRestored = true ∧
    restoreCount (sendTranscription isF o k s).2 = 0 := by
  cases o with
  | ok text =>
    have h2 := sendTranscriptionApply_restored k (normalizeTranscript text) s h
    unfold sendTranscription
    split_ifs <;> simp_all [restoreCount] <;> (try split_ifs) <;>
      simp_all [restoreCount]
  | err msg =>
    unfold sendTranscription stopRecording stopVisualizer
    split_ifs <;> simp_all [restoreCount] <;> (try split_ifs) <;>
      simp_all [restoreCount]

@[simp] theorem handleTranscriptUpdate_backend (ok : Bool) (full : JsStr)
    (s : SessionState) :
    (handleTranscriptUpdate ok full s).1.backend = s.backend :=
  (handleTranscriptUpdate_frame ok full s).1

@[simp] theorem handleTranscriptUpdate_committed (ok : Bool) (full : JsStr)
    (s : SessionState) :
    (handleTranscriptUpdate ok full s).1.committedText = s.committedText :=
  (handleTranscriptUpdate_frame ok full s).2.1

@[simp] theorem handleTranscriptUpdate_finalizing (ok : Bool) (full : JsStr)
    (s : SessionState) :
    (handleTranscriptUpdate ok full s).1.finalizing = s.finalizing :=
  (handleTranscriptUpdate_frame ok full s).2.2.1

@[simp] theorem handleTranscriptUpdate_pending (ok : Bool) (full : JsStr)
    (s : SessionState) :
    (handleTranscriptUpdate ok full s).1.focusTimerPending
      = s.focusTimerPending :=
  (handleTranscriptUpdate_frame ok full s).2.2.2.1

@[simp] theorem sendTranscription_backend (isF : Bool) (o : TOutcome)
    (k : Bool) (s : SessionState) :
    (sendTranscription isF o k s).1.backend = s.backend :=
  (sendTranscription_frame isF o k s).1

@[simp] theorem sendTranscription_committed (isF : Bool) (o : TOutcome)
    (k : Bool) (s : SessionState) :
    (sendTranscription isF o k s).1.committedText = s.committedText :=
  (sendTranscription_frame isF o k s).2.1

@[simp] theorem sendTranscription_typedCount (isF : Bool) (o : TOutcome)
    (k : Bool) (s : SessionState) :
    (sendTranscription isF o k s).1.typedCount = s.typedCount :=
  (sendTranscription_frame isF o k s).2.2.1

@[simp] theorem sendTranscription_finalizing (isF : Bool) (o : TOutcome)
    (k : Bool) (s : SessionState) :
    (sendTranscription isF o k s).1.finalizing = s.finalizing :=
  (sendTranscription_frame isF o k s).2.2.2.1

@[simp] theorem sendTranscription_audioChunks (isF : Bool) (o : TOutcome)
    (k : Bool) (s : SessionState) :
    (sendTranscription isF o k s).1.audioChunks = s.audioChunks :=
  (sendTranscription_frame isF o k s).2.2.2.2.1

@[simp] theorem sendTranscription_pending (isF : Bool) (o : TOutcome)
    (k : Bool) (s : SessionState) :
    (sendTranscription isF o k s).1.focusTimerPending = s.focusTimerPending :=
  (sendTranscription_frame isF o k s).2.2.2.2.2.1

@[simp] theorem sendTranscription_focusRestored (isF : Bool) (o : TOutcome)
    (k : Bool) (s : SessionState) (h : s.focusRestored = true) :
    (sendTranscription isF o k s).1.focusRestored = true :=
  (sendTranscription_restored isF o k s h).1

@[simp] theorem sendTranscription_restoreCount (isF : Bool) (o : TOutcome)
    (k : Bool) (s : SessionState) (h : s.focusRestored = true) :
    restoreCount (sendTranscription isF o k s).2 = 0 :=
  (sendTranscription_restored isF o k s h).2

theorem periodicTranscriptionTick_facts (o : TOutcome) (k : Bool)
    (s : SessionState) :
    (periodicTranscriptionTick o k s).1.backend = s.backend ∧
    (periodicTranscriptionTick o k s).1.finalizing = s.finalizing ∧
    (periodicTranscriptionTick o k s).1.focusTimerPending
      = s.focusTimerPending := by
  unfold periodicTranscriptionTick
  split_ifs <;> simp_all

theorem periodicTranscriptionTick_restored (o : TOutcome) (k : Bool)
    (s : SessionState) (h : s.focusRestored = true) :
    (periodicTranscriptionTick o k s).1.focusRestored = true ∧
    restoreCount (periodicTranscriptionTick o k s).2 = 0 := by
  have h2 := sendTranscription_restored false o k s h
  unfold periodicTranscriptionTick
  split_ifs <;> simp_all

theorem onNativeChunk_facts (ok : Bool) (c : NativeChunk) (s : SessionState) :
    (onNativeChunk ok c s).1.backend = s.backend ∧
    (onNativeChunk ok c s).1.finalizing = s.finalizing ∧
    (onNativeChunk ok c s).1.focusTimerPending = s.focusTimerPending := by
  cases c with
  | ready => unfold onNativeChunk; split_ifs <;> simp_all
  | errorMsg m =>
    unfold onNativeChunk stopVisualizer; split_ifs <;> simp_all
  | ended => unfold onNativeChunk; split_ifs <;> simp_all
  | transcriptEvt t f =>
    unfold onNativeChunk
    split_ifs <;> simp_all <;> (try split_ifs) <;> simp_all

theorem onNativeChunk_typed_live (ok : Bool) (c : NativeChunk)
    (s : SessionState) (h : s.typedCount = s.liveTypedText.length) :
    (onNativeChunk ok c s).1.typedCount
      = (onNativeChunk ok c s).1.liveTypedText.length := by
  cases c with
  | ready => unfold onNativeChunk; split_ifs <;> simp_all
  | errorMsg m =>
    unfold onNativeChunk stopVisualizer; split_ifs <;> simp_all
  | ended => unfold onNativeChunk; split_ifs <;> simp_all
  | transcriptEvt t f =>
    have h2 := handleTranscriptUpdate_typed_live ok
      (mkFullText s.committedText (normalizeTranscript t)) s h
    unfold onNativeChunk
    split_ifs <;> simp_all <;> (try split_ifs) <;> simp_all

theorem onNativeChunk_restored (ok : Bool) (c : NativeChunk)
    (s : SessionState) (h : s.focusRestored = true) :
    (onNativeChunk ok c s).1.focusRestored = true ∧
    restoreCount (onNativeChunk ok c s).2.1 = 0 := by
  cases c with
  | ready => unfold onNativeChunk; split_ifs <;> simp_all [restoreCount]
  | errorMsg m =>
    unfold onNativeChunk stopVisualizer; split_ifs <;> simp_all [restoreCount]
  | ended => unfold onNativeChunk; split_ifs <;> simp_all [restoreCount]
  | transcriptEvt t f =>
    have h2 := handleTranscriptUpdate_restored ok
      (mkFullText s.committedText (normalizeTranscript t)) s h
    unfold onNativeChunk
    split_ifs <;> simp_all [restoreCount] <;> (try split_ifs) <;>
      simp_all [restoreCount]

theorem finalizeReconcile_facts (k : Bool) (s : SessionState) :
    (finalizeReconcile k s).1.backend = s.backend ∧
    (finalizeReconcile k s).1.finalizing = s.finalizing ∧
    (finalizeReconcile k s).1.focusTimerPending = s.focusTimerPending ∧
    (finalizeReconcile k s).1.typedCount = s.typedCount ∧
    (finalizeReconcile k s).1.liveTypedText = s.liveTypedText ∧
    (finalizeReconcile k s).1.focusRestored = s.focusRestored ∧
    restoreCount (finalizeReconcile k s).2 = 0 := by
  unfold finalizeReconcile autoPasteAndClose
  split_ifs <;> simp_all [restoreCount] <;> (try split_ifs) <;>
    simp_all [restoreCount]

theorem finalizeAndClose_already (o : FinalizeOracle) (s : SessionState)
    (h : s.finalizing = true) : finalizeAndClose o s = (s, []) := by
  unfold finalizeAndClose
  simp [h]

theorem finalizeAndClose_facts (o : FinalizeOracle) (s : SessionState)
    (h : s.finalizing = false) :
    (finalizeAndClose o s).1.finalizing = true ∧
    (finalizeAndClose o s).1.backend = s.backend ∧
    (finalizeAndClose o s).1.focusTimerPending = false := by
  unfold finalizeAndClose
  rw [if_neg (by simp [h])]
  cases hb : s.backend <;>
    simp_all [finalizeReconcile_facts, stopVisualizer] <;>
    (try split_ifs) <;> simp_all [finalizeReconcile_facts]

theorem finalizeAndClose_restored (o : FinalizeOracle) (s : SessionState)
    (h : s.focusRestored = true) :
    (finalizeAndClose o s).1.focusRestored = true ∧
    restoreCount (finalizeAndClose o s).2 = 0 := by
  unfold finalizeAndClose
  split_ifs with hf
  · simp [h]
  · cases hb : s.backend <;>
      simp_all [finalizeReconcile_facts, stopVisualizer] <;>
      (try split_ifs) <;>
      simp_all [finalizeReconcile_facts, sendTranscription_restored]

theorem finalizeAndClose_native_fields (o : FinalizeOracle) (s : SessionState)
    (hb : s.backend = Backend.native) :
    (finalizeAndClose o s).1.typedCount = s.typedCount ∧
    (finalizeAndClose o s).1.liveTypedText = s.liveTypedText := by
  unfold finalizeAndClose
  split_ifs with hf
  · simp
  · simp_all [finalizeReconcile_facts, stopVisualizer, hb]

theorem finalizeAndClose_backend (o : FinalizeOracle) (s : SessionState) :
    (finalizeAndClose o s).1.backend = s.backend := by
  cases hf : s.finalizing
  · exact (finalizeAndClose_facts o s hf).2.1
  · rw [finalizeAndClose_already o s hf]

theorem finalizeAndClose_finalizing_mono (o : FinalizeOracle)
    (s : SessionState) (h : s.finalizing = true) :
    (finalizeAndClose o s).1.finalizing = true := by
  rw [finalizeAndClose_already o s h]
  exact h

theorem finalizeAndClose_pending_le (o : FinalizeOracle) (s : SessionState) :
    (finalizeAndClose o s).1.focusTimerPending = s.focusTimerPending ∨
    (finalizeAndClose o s).1.focusTimerPending = false := by
  cases hf : s.finalizing
  · exact Or.inr (finalizeAndClose_facts o s hf).2.2
  · rw [finalizeAndClose_already o s hf]
    exact Or.inl rfl

theorem step_backend (s : SessionState) (e : Event) :
    (step s e).1.backend = s.backend := by
  cases e with
  | nativeChunk ok c fin =>
    have h1 := onNativeChunk_facts ok c s
    have h2 := finalizeAndClose_backend fin (onNativeChunk ok c s).1
    simp only [step]
    split_ifs <;> simp_all
  | tick o k =>
    have h1 := periodicTranscriptionTick_facts o k s
    simp only [step]
    split_ifs <;> simp_all
  | dataAvailable n =>
    simp only [step]
    split_ifs <;> simp_all
  | stopTrigger fin =>
    exact finalizeAndClose_backend fin s
  | focusTimerFires =>
    simp only [step, focusTimerFire]
    split_ifs <;> simp_all

theorem step_finalizing_mono (s : SessionState) (e : Event)
    (h : s.finalizing = true) : (step s e).1.finalizing = true := by
  cases e with
  | nativeChunk ok c fin =>
    have h1 := (onNativeChunk_facts ok c s).2.1
    have h2 := finalizeAndClose_finalizing_mono fin (onNativeChunk ok c s).1
      (by rw [h1, h])
    simp only [step]
    split_ifs <;> simp_all
  | tick o k =>
    have h1 := (periodicTranscriptionTick_facts o k s).2.1
    simp only [step]
    split_ifs <;> simp_all
  | dataAvailable n =>
    simp only [step]
    split_ifs <;> simp_all
  | stopTrigger fin =>
    exact finalizeAndClose_finalizing_mono fin s h
  | focusTimerFires =>
    simp only [step, focusTimerFire]
    split_ifs <;> simp_all

theorem step_typed_live (s : SessionState) (e : Event)
    (hb : s.backend = Backend.native)
    (h : s.typedCount = s.liveTypedText.length) :
    (step s e).1.typedCount = (step s e).1.liveTypedText.length := by
  cases e with
  | nativeChunk ok c fin =>
    have h1 := onNativeChunk_typed_live ok c s h
    have h2 := finalizeAndClose_native_fields fin (onNativeChunk ok c s).1
      (by rw [(onNativeChunk_facts ok c s).1, hb])
    simp only [step]
    split_ifs <;> simp_all
  | tick o k =>
    simp only [step, hb]
    simp [h]
  | dataAvailable n =>
    simp only [step, hb]
    simp [h]
  | stopTrigger fin =>
    have h2 := finalizeAndClose_native_fields fin s hb
    simp only [step]
    simp_all
  | focusTimerFires =>
    simp only [step, focusTimerFire]
    split_ifs <;> simp_all

theorem step_restore (s : SessionState) (e : Event)
    (h : s.focusRestored = true) :
    (step s e).1.focusRestored = true ∧
    restoreCount (step s e).2
        + (if (step s e).1.focusTimerPending = true then 1 else 0)
      ≤ (if s.focusTimerPending = true then 1 else 0) := by
  cases e with
  | nativeChunk ok c fin =>
    have h1 := onNativeChunk_restored ok c s h
    have h2 := onNativeChunk_facts ok c s
    have h3 := finalizeAndClose_restored fin (onNativeChunk ok c s).1 h1.1
    have h4 := finalizeAndClose_pending_le fin (onNativeChunk ok c s).1
    simp only [step]
    split_ifs <;> simp_all <;> rcases h4 with h4 | h4 <;> simp_all <;> omega
  | tick o k =>
    have h1 := periodicTranscriptionTick_restored o k s h
    have h2 := periodicTranscriptionTick_facts o k s
    simp only [step]
    split_ifs <;> simp_all
  | dataAvailable n =>
    simp only [step]
    split_ifs <;> simp_all
  | stopTrigger fin =>
    have h3 := finalizeAndClose_restored fin s h
    have h4 := finalizeAndClose_pending_le fin s
    simp only [step]
    rcases h4 with h4 | h4 <;> simp_all <;> omega
  | focusTimerFires =>
    simp only [step, focusTimerFire]
    split_ifs <;> simp_all

theorem run_typed_live (events : List Event) :
    ∀ s : SessionState, s.backend = Backend.native →
      s.typedCount = s.liveTypedText.length →
      (run s events).1.typedCount = (run s events).1.liveTypedText.length := by
  induction events with
  | nil => intro s _ h; exact h
  | cons e rest ih =>
    intro s hb h
    unfold run
    exact ih (step s e).1 (by rw [step_backend s e, hb])
      (step_typed_live s e hb h)

theorem run_restoreCount (events : List Event) :
    ∀ s : SessionState, s.focusRestored = true →
      restoreCount (run s events).2
        ≤ (if s.focusTimerPending = true then 1 else 0) := by
  induction events with
  | nil => intro s _; simp [run]
  | cons e rest ih =>
    intro s h
    have h1 := step_restore s e h
    have h2 := ih (step s e).1 h1.1
    unfold run
    simp only [restoreCount_append]
    omega

theorem finalizeCount_of_finalizing (events : List Event) :
    ∀ s : SessionState, s.finalizing = true → finalizeCount s events = 0 := by
  induction events with
  | nil => intro s _; rfl
  | cons e rest ih =>
    intro s h
    unfold finalizeCount
    dsimp only
    rw [if_neg (by simp [h]), ih (step s e).1 (step_finalizing_mono s e h)]

theorem finalizeCount_le_one (events : List Event) :
    ∀ s : SessionState, finalizeCount s events ≤ 1 := by
  induction events with
  | nil => intro s; simp [finalizeCount]
  | cons e rest ih =>
    intro s
    unfold finalizeCount
    dsimp only
    split_ifs with hflip
    · rw [finalizeCount_of_finalizing rest (step s e).1 hflip.2]
    · have := ih (step s e).1
      omega

/-! ### The claims -/

/-- C1: in the append-only strategy (`handleTranscriptUpdate`), when the new
full transcript is longer than `typedCharCount` exactly the suffix starting
at `typedCharCount` is typed (besides the one-shot focus restore, no other
capability call is made), `typedCharCount` and `liveTypedText` advance to
the new transcript only when typing succeeds and stay unchanged when it
fails; when the new transcript is no longer than `typedCharCount`, no text
operation is performed and neither `typedCharCount` nor `liveTypedText`
changes. -/
theorem C1_append_only_strategy (typedOk : Bool) (full : JsStr)
    (s : SessionState) :
    (s.typedCount < full.length →
      (handleTranscriptUpdate typedOk full s).2
          = (if s.focusRestored then [] else [CapCall.restoreLastFrontmostApp])
            ++ [CapCall.typeTextLive (full.drop s.typedCount)] ∧
      (typedOk = true →
        (handleTranscriptUpdate typedOk full s).1.typedCount = full.length ∧
        (handleTranscriptUpdate typedOk full s).1.liveTypedText = full) ∧
      (typedOk = false →
        (handleTranscriptUpdate typedOk full s).1.typedCount = s.typedCount ∧
        (handleTranscriptUpdate typedOk full s).1.liveTypedText
          = s.liveTypedText)) ∧
    (full.length ≤ s.typedCount →
      (∀ c ∈ (handleTranscriptUpdate typedOk full s).2,
        c = CapCall.restoreLastFrontmostApp) ∧
      (handleTranscriptUpdate typedOk full s).1.typedCount = s.typedCount ∧
      (handleTranscriptUpdate typedOk full s).1.liveTypedText
        = s.liveTypedText) := by
  have hlen : (full.drop s.typedCount).length = full.length - s.typedCount :=
    List.length_drop _ _
  unfold handleTranscriptUpdate restoreEditorFocusOnce
  split_ifs <;> simp_all <;> (try split_ifs) <;> simp_all <;> omega

/-- Witness for C1 at a concrete input. -/
theorem C1_append_only_strategy_witness :
    (sessionStart Backend.native).typedCount < (("ab").toList).length ∧
    (handleTranscriptUpdate true (("ab").toList)
        (sessionStart Backend.native)).1.typedCount
      = (("ab").toList).length :=
  ⟨by decide,
   (((C1_append_only_strategy true (("ab").toList)
      (sessionStart Backend.native)).1 (by decide)).2.1 rfl).1⟩

/-- C2 counterexample: in a Streaming session where the partial
"hello world" is fully typed and the recognizer then revises the partial
down to "hi", `typedCharCount` (11) exceeds the length of
`combinedTranscript` (2), so the claimed invariant
`typedCharCount ≤ length(combinedTranscript)` fails. -/
theorem C2_counterexample :
    (run (sessionStart Backend.native) shrinkTrace).1.combinedTranscript.length
      < (run (sessionStart Backend.native) shrinkTrace).1.typedCount := by
  decide

/-- C2 (amended): in every Streaming (native) session, `typedCharCount`
always equals the length of `liveTypedText` — it counts exactly the
characters flushed to the focus target — though it can exceed the length of
`combinedTranscript` when a later transcript is shorter than what was
already typed. -/
theorem C2_typed_count_eq_live_typed (events : List Event) :
    (run (sessionStart Backend.native) events).1.typedCount
      = (run (sessionStart Backend.native) events).1.liveTypedText.length :=
  run_typed_live events (sessionStart Backend.native) (by decide) (by decide)

/-- C3 counterexample: a session in which the stop trigger fires twice in
quick succession — before any transcript update and before the armed
150 ms focus-restore timer fires — executes exactly one finalize sequence
but zero `restoreLastFrontmostApp` calls, refuting "invoked exactly once
per session". -/
theorem C3_counterexample :
    finalizeCount (sessionStart Backend.native) doubleStopTrace = 1 ∧
    restoreCount (run (sessionStart Backend.native) doubleStopTrace).2 = 0 := by
  decide

/-- C3 (amended): for every session and every event sequence, at most one
finalize sequence executes (a second stop trigger is a no-op), and
`restoreLastFrontmostApp` is invoked at most once — it is invoked zero
times when finalize begins before any transcript update and before the
armed focus-restore timer fires. -/
theorem C3_finalize_once_restore_at_most_once (b : Backend)
    (events : List Event) :
    finalizeCount (sessionStart b) events ≤ 1 ∧
    restoreCount (run (sessionStart b) events).2 ≤ 1 := by
  refine ⟨finalizeCount_le_one events (sessionStart b), ?_⟩
  have h := run_restoreCount events (sessionStart b) (by cases b <;> decide)
  have h2 : (if (sessionStart b).focusTimerPending = true then 1 else 0) ≤ 1 := by
    cases b <;> decide
  omega

theorem periodicTranscriptionTick_timer_off (o : TOutcome) (k : Bool)
    (s : SessionState) (h : s.periodicTimer = false) :
    periodicTranscriptionTick o k s = (s, []) := by
  unfold periodicTranscriptionTick
  simp [h]

theorem submitSeq_frame (subs : List (TOutcome × Bool)) :
    ∀ s : SessionState,
      (submitSeq subs s).finalizing = s.finalizing ∧
      (submitSeq subs s).audioChunks = s.audioChunks := by
  induction subs with
  | nil => intro s; exact ⟨rfl, rfl⟩
  | cons p rest ih =>
    intro s
    unfold submitSeq at ih ⊢
    simp only [List.foldl_cons]
    have h1 := ih (sendTranscription false p.1 p.2 s).1
    simp_all

theorem sendTranscriptionApply_success (n : JsStr) (s : SessionState) :
    (sendTranscriptionApply true n s).1.liveTypedText = n ∧
    (sendTranscriptionApply true n s).1.combinedTranscript = n := by
  unfold sendTranscriptionApply restoreEditorFocusOnce
  split_ifs <;> simp_all <;> (try split_ifs) <;> simp_all

theorem sendTranscription_ok_success (t : JsStr) (s : SessionState)
    (hfin : s.finalizing = false) (hch : s.audioChunks ≠ [])
    (hsz : 1000 ≤ s.audioChunks.sum) (hn : normalizeTranscript t ≠ []) :
    (sendTranscription false (TOutcome.ok t) true s).1.liveTypedText
        = normalizeTranscript t ∧
    (sendTranscription false (TOutcome.ok t) true s).1.combinedTranscript
        = normalizeTranscript t := by
  have ht : ¬t = [] := by
    intro he
    rw [he] at hn
    exact hn (by decide)
  have happ := sendTranscriptionApply_success (normalizeTranscript t) s
  unfold sendTranscription
  split_ifs <;> simp_all <;> omega

/-- C4: for the Buffered backend, after any sequence of periodic
submissions, once the next (N-th) submission's type-or-replace succeeds,
`liveTypedText` equals the normalized transcript of that submission,
regardless of the earlier transcripts and outcomes; the transcript
supersedes `combinedTranscript` entirely; on a failed type/replace,
`liveTypedText` is unchanged. -/
theorem C4_full_replace_convergence (subs : List (TOutcome × Bool))
    (tN : JsStr) (s : SessionState) (hfin : s.finalizing = false)
    (hch : s.audioChunks ≠ []) (hsz : 1000 ≤ s.audioChunks.sum)
    (hn : normalizeTranscript tN ≠ []) :
    (sendTranscription false (TOutcome.ok tN) true
        (submitSeq subs s)).1.liveTypedText = normalizeTranscript tN ∧
    (sendTranscription false (TOutcome.ok tN) true
        (submitSeq subs s)).1.combinedTranscript = normalizeTranscript tN ∧
    (∀ (isF : Bool) (o : TOutcome) (s2 : SessionState),
      (sendTranscription isF o false s2).1.liveTypedText
        = s2.liveTypedText) := by
  have hf := submitSeq_frame subs s
  have h := sendTranscription_ok_success tN (submitSeq subs s)
    (by rw [hf.1, hfin]) (by rw [hf.2]; exact hch) (by rw [hf.2]; exact hsz) hn
  exact ⟨h.1, h.2,
    fun isF o s2 => sendTranscription_liveTyped_of_failure isF o s2⟩

/-- Witness for C4 at a concrete input. -/
theorem C4_full_replace_convergence_witness :
    (sendTranscription false (TOutcome.ok (("hi").toList)) true
        (submitSeq [(TOutcome.ok (("a").toList), true)]
          gatedState)).1.liveTypedText
      = normalizeTranscript (("hi").toList) :=
  (C4_full_replace_convergence [(TOutcome.ok (("a").toList), true)]
    (("hi").toList) gatedState (by decide) (by decide) (by decide)
    (by decide)).1

theorem handleTranscriptUpdate_combined_set (ok : Bool) (full : JsStr)
    (s : SessionState) (h : ¬full = []) :
    (handleTranscriptUpdate ok full s).1.combinedTranscript = full := by
  unfold handleTranscriptUpdate restoreEditorFocusOnce
  split_ifs <;> simp_all <;> (try split_ifs) <;> simp_all

/-- C5: for a Streaming transcript event carrying (normalized) text P, the
session computes the full transcript as `committedText + " " + P` when the
committed text is non-empty and as P alone when it is empty, stores it in
`combinedTranscript`, and on a final event the committed text becomes that
full transcript (otherwise it is unchanged). -/
theorem C5_streaming_full_text (typedOk isFinal : Bool) (t : JsStr)
    (s : SessionState) (hfin : s.finalizing = false)
    (hn : normalizeTranscript t ≠ []) :
    (onNativeChunk typedOk (NativeChunk.transcriptEvt t isFinal)
        s).1.combinedTranscript
      = (if s.committedText = [] then normalizeTranscript t
         else s.committedText ++ spaceChar :: normalizeTranscript t) ∧
    (onNativeChunk typedOk (NativeChunk.transcriptEvt t isFinal)
        s).1.committedText
      = (if isFinal = true then
           (if s.committedText = [] then normalizeTranscript t
            else s.committedText ++ spaceChar :: normalizeTranscript t)
         else s.committedText) := by
  have hmk : ¬mkFullText s.committedText (normalizeTranscript t) = [] := by
    unfold mkFullText
    split_ifs <;> simp_all
  have hset := handleTranscriptUpdate_combined_set typedOk
    (mkFullText s.committedText (normalizeTranscript t)) s hmk
  have hcom := handleTranscriptUpdate_committed typedOk
    (mkFullText s.committedText (normalizeTranscript t)) s
  unfold onNativeChunk
  split_ifs <;> simp_all [mkFullText]

/-- Witness for C5 at a concrete input. -/
theorem C5_streaming_full_text_witness :
    (onNativeChunk true (NativeChunk.transcriptEvt (("world").toList) true)
        { sessionStart Backend.native with
            committedText := ("hello").toList }).1.committedText
      = ("hello").toList ++ spaceChar :: ("world").toList := by
  have h := (C5_streaming_full_text true true (("world").toList)
    { sessionStart Backend.native with committedText := ("hello").toList }
    (by decide) (by decide)).2
  rw [h]
  decide

/-- C6 counterexample: at finalize with `combinedTranscript` whose
normalization still begins with a quote character and with empty
`liveTypedText`, the single `pasteText` call carries the doubly-normalized
string "hi", which differs from the canonical transcript
(`combinedTranscript` normalized once), refuting "pasteText call with the
canonical transcript". -/
theorem C6_counterexample :
    normalizeTranscript quoteState.combinedTranscript ≠ [] ∧
    normalizeTranscript quoteState.liveTypedText = [] ∧
    (finalizeReconcile true quoteState).2
      = [CapCall.pasteText (("hi").toList)] ∧
    ("hi").toList ≠ normalizeTranscript quoteState.combinedTranscript := by
  decide

/-- C6 (amended): at finalize, an empty normalized transcript closes with
no capability call; a non-empty transcript with empty live-typed text
issues at most one `pasteText` — whose argument is the canonical transcript
re-normalized, which can differ from the canonical transcript itself when
stripping edge quotes exposes further whitespace or quotes — with
`clipboardWrite` only when the paste fails; differing non-empty texts issue
exactly one full-replace; identical texts issue nothing. -/
theorem C6_finalize_reconcile (pasteOk : Bool) (s : SessionState) :
    (normalizeTranscript s.combinedTranscript = [] →
      (finalizeReconcile pasteOk s).2 = []) ∧
    (normalizeTranscript s.combinedTranscript ≠ [] →
      normalizeTranscript s.liveTypedText = [] →
      (finalizeReconcile pasteOk s).2
        = (if normalizeTranscript
              (normalizeTranscript s.combinedTranscript) = [] then []
           else if pasteOk = true then
             [CapCall.pasteText
               (normalizeTranscript
                 (normalizeTranscript s.combinedTranscript))]
           else
             [CapCall.pasteText
               (normalizeTranscript
                 (normalizeTranscript s.combinedTranscript)),
              CapCall.clipboardWrite
               (normalizeTranscript
                 (normalizeTranscript s.combinedTranscript))])) ∧
    (normalizeTranscript s.combinedTranscript ≠ [] →
      normalizeTranscript s.liveTypedText ≠ [] →
      normalizeTranscript s.liveTypedText
          ≠ normalizeTranscript s.combinedTranscript →
      (finalizeReconcile pasteOk s).2
        = [CapCall.replaceLiveText (normalizeTranscript s.liveTypedText)
            (normalizeTranscript s.combinedTranscript)]) ∧
    (normalizeTranscript s.combinedTranscript ≠ [] →
      normalizeTranscript s.liveTypedText
          = normalizeTranscript s.combinedTranscript →
      (finalizeReconcile pasteOk s).2 = []) := by
  unfold finalizeReconcile autoPasteAndClose
  split_ifs <;> simp_all

/-- Witness for C6 (amended) at a concrete input. -/
theorem C6_finalize_reconcile_witness :
    (finalizeReconcile true
        { sessionStart Backend.whisper with
            combinedTranscript := ("hi").toList,
            liveTypedText := ("hi").toList }).2 = [] :=
  (C6_finalize_reconcile true
    { sessionStart Backend.whisper with
        combinedTranscript := ("hi").toList,
        liveTypedText := ("hi").toList }).2.2.2 (by decide) (by decide)

/-- C7: a Buffered transcription call that rejects with an authorization
marker (a message containing "API key", "401" or "403") transitions the
session to Error, clears the periodic timer and stops the recorder so no
further tick performs any work, and releases the audio resources; any other
rejection leaves the session completely unchanged (so the periodic loop
continues). -/
theorem C7_fatal_auth_error (isF typedOk : Bool) (msg : JsStr)
    (s : SessionState) (hch : s.audioChunks ≠ [])
    (hsz : 1000 ≤ s.audioChunks.sum) :
    (isAuthFailure msg = true →
      sendTranscription isF (TOutcome.err msg) typedOk s
          = (stopVisualizer (stopRecording { s with wstate := WState.error }),
             []) ∧
      (sendTranscription isF (TOutcome.err msg) typedOk s).1.wstate
          = WState.error ∧
      (sendTranscription isF (TOutcome.err msg) typedOk s).1.periodicTimer
          = false ∧
      (sendTranscription isF (TOutcome.err msg) typedOk s).1.recorderActive
          = false ∧
      (sendTranscription isF (TOutcome.err msg) typedOk s).1.visualizerActive
          = false ∧
      (∀ (o : TOutcome) (k : Bool),
        periodicTranscriptionTick o k
            (sendTranscription isF (TOutcome.err msg) typedOk s).1
          = ((sendTranscription isF (TOutcome.err msg) typedOk s).1, []))) ∧
    (isAuthFailure msg = false →
      sendTranscription isF (TOutcome.err msg) typedOk s = (s, [])) := by
  have hgate : ¬(s.audioChunks.sum < 1000 ∧ isF = false) := by
    intro hc
    omega
  constructor
  · intro hauth
    have heq : sendTranscription isF (TOutcome.err msg) typedOk s
        = (stopVisualizer (stopRecording { s with wstate := WState.error }),
           []) := by
      unfold sendTranscription
      rw [if_neg hch, if_neg hgate]
      dsimp only
      rw [if_pos hauth]
    rw [heq]
    refine ⟨rfl, rfl, rfl, rfl, rfl, ?_⟩
    intro o k
    exact periodicTranscriptionTick_timer_off o k _ rfl
  · intro hauth
    unfold sendTranscription
    rw [if_neg hch, if_neg hgate]
    dsimp only
    rw [if_neg (by simp [hauth])]

/-- Witness for C7 at a concrete input. -/
theorem C7_fatal_auth_error_witness :
    (sendTranscription false (TOutcome.err (("401 Unauthorized").toList))
        true gatedState).1.wstate = WState.error :=
  ((C7_fatal_auth_error false true (("401 Unauthorized").toList) gatedState
    (by decide) (by decide)).1 (by decide)).2.1

/-- C8 counterexample: a non-final Buffered transcription call that rejects
with a 401 message after finalize has begun still mutates session state —
it flips the state to Error — so "no backend or timer callback mutates
session state once finalizing is set" fails on the error path, which does
not check the flag. -/
theorem C8_counterexample :
    lateErrorState.finalizing = true ∧
    lateErrorState.wstate = WState.processing ∧
    (sendTranscription false (TOutcome.err (("401").toList)) true
        lateErrorState).1.wstate = WState.error := by
  decide

/-- C8 (amended): once `finalizing` is set, a native chunk event is ignored
entirely, a non-final Buffered transcription success result is discarded,
and a periodic tick performs no submission; however a non-final call
rejecting with an authorization-marker error still mutates state. -/
theorem C8_finalizing_guard (s : SessionState) (hfin : s.finalizing = true) :
    (∀ (typedOk : Bool) (c : NativeChunk),
      onNativeChunk typedOk c s = (s, [], false)) ∧
    (∀ (t : JsStr) (typedOk : Bool),
      sendTranscription false (TOutcome.ok t) typedOk s = (s, [])) ∧
    (∀ (o : TOutcome) (typedOk : Bool),
      periodicTranscriptionTick o typedOk s = (s, [])) := by
  refine ⟨?_, ?_, ?_⟩
  · intro typedOk c
    unfold onNativeChunk
    simp [hfin]
  · intro t typedOk
    unfold sendTranscription
    split_ifs <;> simp_all
  · intro o typedOk
    unfold periodicTranscriptionTick
    split_ifs <;> simp_all

/-- Witness for C8 (amended) at a concrete input. -/
theorem C8_finalizing_guard_witness :
    sendTranscription false (TOutcome.ok (("x").toList)) true lateErrorState
      = (lateErrorState, []) :=
  (C8_finalizing_guard lateErrorState (by decide)).2.1 (("x").toList) true

theorem waitLoopFuel_stuck : ∀ fuel n : Nat,
    waitLoopFuel stuckFlag n fuel = none := by
  intro fuel
  induction fuel with
  | zero => intro n; rfl
  | succ f ih =>
    intro n
    unfold waitLoopFuel
    simp [stuckFlag, ih]

/-- C9 counterexample: the wait loop of `finalizeAndClose`
(`while (transcribeInFlightRef.current) await 50ms`) has no upper bound —
against an in-flight transcription that never settles, the loop is still
spinning after every number of iterations, so finalize does not proceed
after any bounded wait. -/
theorem C9_counterexample :
    ¬∃ fuel n : Nat, waitLoopFuel stuckFlag 0 fuel = some n := by
  rintro ⟨fuel, n, h⟩
  rw [waitLoopFuel_stuck fuel 0] at h
  cases h

theorem waitLoop_exits (flag : Nat → Bool) :
    ∀ fuel start : Nat, (∃ j, j < fuel ∧ flag (start + j) = false) →
      (waitLoopFuel flag start fuel).isSome = true := by
  intro fuel
  induction fuel with
  | zero =>
    rintro start ⟨j, hj, _⟩
    omega
  | succ f ih =>
    rintro start ⟨j, hj, hflag⟩
    unfold waitLoopFuel
    cases hs : flag start with
    | false => simp [hs]
    | true =>
      have hj2 : ∃ j2, j = j2 + 1 := by
        cases j with
        | zero =>
          rw [Nat.add_zero] at hflag
          rw [hs] at hflag
          cases hflag
        | succ j2 => exact ⟨j2, rfl⟩
      obtain ⟨j2, rfl⟩ := hj2
      have h2 := ih (start + 1)
        ⟨j2, by omega, by
          have he : start + 1 + j2 = start + (j2 + 1) := by omega
          rw [he]
          exact hflag⟩
      simpa [hs] using h2

/-- C9 (amended): the finalize wait loop polls the in-flight flag with no
upper bound; it terminates exactly when the in-flight transcription
settles — if the flag is clear at the k-th poll the loop exits within k+1
iterations, and (per the counterexample) if the call never settles the loop
never exits. -/
theorem C9_wait_exits_when_resolved (flag : Nat → Bool) (k : Nat)
    (h : flag k = false) :
    (waitLoopFuel flag 0 (k + 1)).isSome = true :=
  waitLoop_exits flag (k + 1) 0 ⟨k, by omega, by simpa using h⟩

/-- Witness for C9 (amended) at a concrete input. -/
theorem C9_wait_exits_when_resolved_witness :
    (waitLoopFuel (fun n => decide (n < 3)) 0 4).isSome = true :=
  C9_wait_exits_when_resolved (fun n => decide (n < 3)) 3 (by decide)

theorem handleTranscriptUpdate_combined_or (ok : Bool) (full : JsStr)
    (s : SessionState) :
    (handleTranscriptUpdate ok full s).1.combinedTranscript
        = s.combinedTranscript ∨
    (handleTranscriptUpdate ok full s).1.combinedTranscript = full := by
  unfold handleTranscriptUpdate restoreEditorFocusOnce
  split_ifs <;> simp_all <;> (try split_ifs) <;> simp_all

theorem onNativeChunk_combined_or (ok isF : Bool) (t : JsStr)
    (s : SessionState) :
    (onNativeChunk ok (NativeChunk.transcriptEvt t isF) s).1.combinedTranscript
        = s.combinedTranscript ∨
    (onNativeChunk ok (NativeChunk.transcriptEvt t isF) s).1.combinedTranscript
        = mkFullText s.committedText (normalizeTranscript t) := by
  have h := handleTranscriptUpdate_combined_or ok
    (mkFullText s.committedText (normalizeTranscript t)) s
  unfold onNativeChunk
  split_ifs <;> simp_all <;> (try split_ifs) <;> simp_all

theorem sendTranscriptionApply_combined (k : Bool) (n : JsStr)
    (s : SessionState) :
    (sendTranscriptionApply k n s).1.combinedTranscript = n := by
  unfold sendTranscriptionApply restoreEditorFocusOnce
  split_ifs <;> simp_all <;> (try split_ifs) <;> simp_all

theorem sendTranscription_combined_or (isF k : Bool) (t : JsStr)
    (s : SessionState) :
    (sendTranscription isF (TOutcome.ok t) k s).1.combinedTranscript
        = s.combinedTranscript ∨
    (sendTranscription isF (TOutcome.ok t) k s).1.combinedTranscript
        = normalizeTranscript t := by
  have h := sendTranscriptionApply_combined k (normalizeTranscript t) s
  unfold sendTranscription
  split_ifs <;> simp_all <;> (try split_ifs) <;> simp_all

theorem autoPasteAndClose_mem (k : Bool) (t : JsStr) (c : CapCall)
    (hc : c ∈ autoPasteAndClose k t) :
    c = CapCall.pasteText (normalizeTranscript t) ∨
    c = CapCall.clipboardWrite (normalizeTranscript t) := by
  unfold autoPasteAndClose at hc
  split_ifs at hc <;> simp_all

/-- C10: `normalizeTranscript` yields a string with no two consecutive
whitespace characters and no leading or trailing whitespace, maps
null/undefined and whitespace-only inputs to the empty string; every
transcript a backend event stores into `combinedTranscript` was passed
through `normalizeTranscript` first (Streaming events store
`committedText` joined with the normalized event text, Buffered results
store the normalized result), and every `pasteText`/`clipboardWrite`
argument of `autoPasteAndClose` is a `normalizeTranscript` image. -/
theorem C10_normalize_contract :
    (∀ l : JsStr, NoDoubleWs (normalizeTranscript l)) ∧
    (∀ (l : JsStr) (c : Char),
      (normalizeTranscript l).head? = some c → isJsWs c = false) ∧
    (∀ (l : JsStr) (c : Char),
      (normalizeTranscript l).getLast? = some c → isJsWs c = false) ∧
    normalizeTranscriptLoose none = [] ∧
    (∀ l : JsStr, (∀ c ∈ l, isJsWs c = true) → normalizeTranscript l = []) ∧
    (∀ (ok isF : Bool) (t : JsStr) (s : SessionState),
      (onNativeChunk ok (NativeChunk.transcriptEvt t isF)
          s).1.combinedTranscript = s.combinedTranscript ∨
      (onNativeChunk ok (NativeChunk.transcriptEvt t isF)
          s).1.combinedTranscript
        = mkFullText s.committedText (normalizeTranscript t)) ∧
    (∀ (isF k : Bool) (t : JsStr) (s : SessionState),
      (sendTranscription isF (TOutcome.ok t) k s).1.combinedTranscript
          = s.combinedTranscript ∨
      (sendTranscription isF (TOutcome.ok t) k s).1.combinedTranscript
          = normalizeTranscript t) ∧
    (∀ (k : Bool) (t : JsStr) (c : CapCall), c ∈ autoPasteAndClose k t →
      c = CapCall.pasteText (normalizeTranscript t) ∨
      c = CapCall.clipboardWrite (normalizeTranscript t)) := by
  refine ⟨noDoubleWs_normalizeTranscript, ?_, ?_, rfl,
    normalizeTranscript_all_ws, onNativeChunk_combined_or,
    sendTranscription_combined_or, autoPasteAndClose_mem⟩
  · intro l c h
    exact trimWs_head_not_ws (stripEdgeQuotes (collapseWs l)) c h
  · intro l c h
    exact trimWs_getLast_not_ws (stripEdgeQuotes (collapseWs l)) c h

/-- Witness for C10 at concrete inputs. -/
theorem C10_normalize_contract_witness :
    normalizeTranscript (("  \t ").toList) = [] ∧
    (CapCall.pasteText (normalizeTranscript (("hi").toList))
        = CapCall.pasteText (normalizeTranscript (("hi").toList)) ∨
      CapCall.pasteText (normalizeTranscript (("hi").toList))
        = CapCall.clipboardWrite (normalizeTranscript (("hi").toList))) :=
  ⟨C10_normalize_contract.2.2.2.2.1 (("  \t ").toList) (by decide),
   C10_normalize_contract.2.2.2.2.2.2.2 true (("hi").toList)
     (CapCall.pasteText (normalizeTranscript (("hi").toList))) (by decide)⟩

end SuperCmd
